import Mathlib

/-
Verification development for the finality-tracking and crash-recovery layer
of the validator-azero repository.

The embedding covers three subsystems:
  * the reorg-detecting metrics tracker
    (finality-aleph/src/metrics/chain_state.rs),
  * the chain-status query interface
    (finality-aleph/src/sync/substrate/chain_status.rs),
  * the session backup/recovery manager
    (finality-aleph/src/party/member.rs).

Block hashes are modelled as natural numbers, headers as records of
hash, parent hash and number, byte streams as lists of naturals.
-/

namespace ValidatorAzero

/-- Block header: the fields of a substrate header that the verified code
reads (hash, parent hash, block number). -/
structure Header where
  hash : Nat
  parent_hash : Nat
  number : Nat
deriving DecidableEq, Repr

/-- Chain backend as seen by the metrics tracker: resolves a hash to a
header, mirroring the `HeaderMetadata` bound of `ChainStateMetricsRunner`. -/
structure ChainBackend where
  headerForHash : Nat → Option Header

/-- Fuel-bounded walk towards the lowest common ancestor: step the header
with the larger number to its parent until the two meet; fuel exhaustion or a
missing parent header models the error case of the backend computation. -/
def lcaFrom (be : ChainBackend) : Nat → Header → Header → Option Header
  | 0, a, b => if a.hash = b.hash then some a else none
  | fuel + 1, a, b =>
    if a.hash = b.hash then some a
    else if b.number < a.number then
      match be.headerForHash a.parent_hash with
      | some pa => lcaFrom be fuel pa b
      | none => none
    else
      match be.headerForHash b.parent_hash with
      | some pb => lcaFrom be fuel a pb
      | none => none

/-- Modelled from the spec: the backend capability
`lowest_common_ancestor(a, b) -> Result<{hash, number}>` of section 6 of the
specification; its implementation lives in the external `sp_blockchain`
crate, outside the provided sources. It resolves both hashes and walks
parent links to the single nearest common ancestor; any failure
(unknown hash, broken ancestry) is `none`. -/
def lowest_common_ancestor (be : ChainBackend) (h1 h2 : Nat) : Option Header :=
  match be.headerForHash h1, be.headerForHash h2 with
  | some a, some b => lcaFrom be (a.number + b.number + 1) a b
  | _, _ => none

/-- Embedding of `ChainStateMetricsRunner::detect_reorgs`
(finality-aleph/src/metrics/chain_state.rs, lines 213-232): quit early with
no signal when there is no previous best, when the new best equals the
previous best, or when it is its direct child; otherwise measure
`prev.number - lca.number` and report it unless it is zero. -/
def detect_reorgs (be : ChainBackend) (prev_best : Option Header) (best : Header) :
    Option Nat :=
  match prev_best with
  | none => none
  | some prev =>
    if best.hash = prev.hash ∨ best.parent_hash = prev.hash then none
    else
      match lowest_common_ancestor be best.hash prev.hash with
      | none => none
      | some lca =>
        let len := prev.number - lca.number
        if len = 0 then none else some len

/- Fixture chain taken from the repository's own test `test_reorg_detection`:

                     C0 - C1
                   /
    G - A0 - A1 - A2 - A3 - A4
         \
           B0 - B1 - B2
-/

def fixG : Header := ⟨1, 999, 0⟩
def fixA0 : Header := ⟨10, 1, 1⟩
def fixA1 : Header := ⟨11, 10, 2⟩
def fixA2 : Header := ⟨12, 11, 3⟩
def fixA3 : Header := ⟨13, 12, 4⟩
def fixA4 : Header := ⟨14, 13, 5⟩
def fixB0 : Header := ⟨20, 10, 2⟩
def fixB1 : Header := ⟨21, 20, 3⟩
def fixB2 : Header := ⟨22, 21, 4⟩
def fixC0 : Header := ⟨30, 12, 4⟩
def fixC1 : Header := ⟨31, 30, 5⟩

def fixtureHeaders : List Header :=
  [fixG, fixA0, fixA1, fixA2, fixA3, fixA4, fixB0, fixB1, fixB2, fixC0, fixC1]

def fixtureBackend : ChainBackend :=
  ⟨fun h => fixtureHeaders.find? (fun hd => hd.hash = h)⟩

/- Chain-status query interface
   (finality-aleph/src/sync/substrate/chain_status.rs). -/

/-- Identifier of a block: hash plus claimed number, mirroring
`BlockId { hash, number }`. -/
structure BlockId where
  hash : Nat
  number : Nat
deriving DecidableEq, Repr

/-- Client backend of `SubstrateChainStatus`. Per section 6 of the
specification the backend is an external collaborator exposing
`header_for_hash` and `justification_of`; `justifications` here is the
composition of `client.justifications(hash)` with
`into_justification(ALEPH_ENGINE_ID)`, yielding the raw bytes stored for
the Aleph engine. `decode` abstracts `backwards_compatible_decode`
(repository code outside the provided sources); only its success or failure
matters to the verified functions, a decoded justification being opaque and
modelled as a natural number, with `none` modelling a decode error. -/
structure StatusBackend where
  header : Nat → Option Header
  justifications : Nat → Option (List Nat)
  decode : List Nat → Option Nat

/-- Errors of the status layer, mirroring `Error<B>`. The `Client` variant
is omitted: the backend model is pure, so client errors cannot arise. -/
inductive StatusError where
  | MissingHash (hash : Nat)
  | MissingJustification (hash : Nat)
  | MismatchedId
deriving DecidableEq, Repr

/-- Justification paired with its header, mirroring
`Justification { header, raw_justification }`. -/
structure Justification where
  header : Header
  raw_justification : Nat
deriving DecidableEq, Repr

/-- Status of a block, mirroring `BlockStatus`. -/
inductive BlockStatus where
  | Unknown
  | Justified (justification : Justification)
  | Present (header : Header)
deriving DecidableEq, Repr

/-- Embedding of `SubstrateChainStatus::header` (chain_status.rs, lines
93-105): resolve the hash; a present header whose number differs from the
identifier's is `MismatchedId`, otherwise the lookup result is returned. -/
def header_of (be : StatusBackend) (id : BlockId) : Except StatusError (Option Header) :=
  match be.header id.hash with
  | none => Except.ok none
  | some h =>
    if h.number = id.number then Except.ok (some h)
    else Except.error StatusError.MismatchedId

/-- Embedding of `SubstrateChainStatus::justification` (chain_status.rs,
lines 107-128): absent bytes give `Ok(None)`; present bytes that fail to
decode are logged and also give `Ok(None)`, never an error. -/
def justification_of (be : StatusBackend) (hash : Nat) : Except StatusError (Option Nat) :=
  match be.justifications hash with
  | none => Except.ok none
  | some raw =>
    match be.decode raw with
    | some j => Except.ok (some j)
    | none => Except.ok none

/-- Embedding of `SubstrateChainStatus::status_of` (chain_status.rs, lines
161-178). -/
def status_of (be : StatusBackend) (id : BlockId) : Except StatusError BlockStatus :=
  match header_of be id with
  | Except.error e => Except.error e
  | Except.ok none => Except.ok BlockStatus.Unknown
  | Except.ok (some h) =>
    match justification_of be id.hash with
    | Except.error e => Except.error e
    | Except.ok (some j) => Except.ok (BlockStatus.Justified ⟨h, j⟩)
    | Except.ok none => Except.ok (BlockStatus.Present h)

/- Sample backend for witnesses: block 5 justified, block 6 present without
justification bytes, block 8 with stored bytes that fail to decode. -/

def wH5 : Header := ⟨5, 0, 10⟩
def wH6 : Header := ⟨6, 0, 11⟩
def wH8 : Header := ⟨8, 0, 12⟩

def wBE : StatusBackend :=
  { header := fun h =>
      if h = 5 then some wH5 else if h = 6 then some wH6 else
      if h = 8 then some wH8 else none,
    justifications := fun h =>
      if h = 5 then some [1, 2] else if h = 8 then some [9] else none,
    decode := fun raw => if raw = [1, 2] then some 7 else none }

/- Metrics tracker (finality-aleph/src/metrics/chain_state.rs). -/

/-- Metrics sink, mirroring the `ChainStateMetrics` enum. In the
`Prometheus` variant the counters and gauges are carried as naturals and the
reorg histogram as the list of observed samples; `Noop` carries nothing. -/
inductive ChainStateMetrics where
  | Prometheus (own_finalized_blocks own_hopeless_blocks top_finalized_block best_block : Nat)
      (reorgs : List Nat)
  | Noop
deriving DecidableEq, Repr

/-- Embedding of `increment_own_hopeless_blocks` (chain_state.rs, lines
76-84). -/
def increment_own_hopeless_blocks : ChainStateMetrics → ChainStateMetrics
  | ChainStateMetrics.Prometheus fin hope top best rr =>
      ChainStateMetrics.Prometheus fin (hope + 1) top best rr
  | ChainStateMetrics.Noop => ChainStateMetrics.Noop

/-- Embedding of `update_best_block` (chain_state.rs, lines 86-90). -/
def update_best_block : ChainStateMetrics → Nat → ChainStateMetrics
  | ChainStateMetrics.Prometheus fin hope top _ rr, n =>
      ChainStateMetrics.Prometheus fin hope top n rr
  | ChainStateMetrics.Noop, _ => ChainStateMetrics.Noop

/-- Embedding of `update_top_finalized_block` (chain_state.rs, lines
92-102): in the `Prometheus` variant it both sets the top-finalized gauge
and increments the `own_finalized_blocks` counter. -/
def update_top_finalized_block : ChainStateMetrics → Nat → ChainStateMetrics
  | ChainStateMetrics.Prometheus fin hope _ best rr, n =>
      ChainStateMetrics.Prometheus (fin + 1) hope n best rr
  | ChainStateMetrics.Noop, _ => ChainStateMetrics.Noop

/-- Embedding of `report_reorg` (chain_state.rs, lines 104-108). -/
def report_reorg : ChainStateMetrics → Nat → ChainStateMetrics
  | ChainStateMetrics.Prometheus fin hope top best rr, len =>
      ChainStateMetrics.Prometheus fin hope top best (rr ++ [len])
  | ChainStateMetrics.Noop, _ => ChainStateMetrics.Noop

/-- Value of the `own_finalized_blocks` counter (zero in `Noop` mode). -/
def ownFinalizedCount : ChainStateMetrics → Nat
  | ChainStateMetrics.Prometheus fin _ _ _ _ => fin
  | ChainStateMetrics.Noop => 0

/-- Value of the `own_hopeless_blocks` counter (zero in `Noop` mode). -/
def ownHopelessCount : ChainStateMetrics → Nat
  | ChainStateMetrics.Prometheus _ hope _ _ _ => hope
  | ChainStateMetrics.Noop => 0

/-- Value of the `top_finalized_block` gauge (zero in `Noop` mode). -/
def topFinalizedGauge : ChainStateMetrics → Nat
  | ChainStateMetrics.Prometheus _ _ top _ _ => top
  | ChainStateMetrics.Noop => 0

/-- Whether the metrics sink is the `Prometheus` variant. -/
def isPrometheus : ChainStateMetrics → Bool
  | ChainStateMetrics.Prometheus _ _ _ _ _ => true
  | ChainStateMetrics.Noop => false

/-- Mutable state of the event loop of `run_chain_state_metrics`:
the metrics sink, the `own_imported_by_level` map (height to the list of
self-authored hashes imported at that height) and the previous best
header. -/
structure TrackerState where
  metrics : ChainStateMetrics
  own_imported_by_level : Nat → Option (List Nat)
  previous_best : Option Header

/-- Import notification as consumed by the tracker: header, new-best flag
and whether the origin is `BlockOrigin::Own`. -/
structure ImportNotification where
  header : Header
  is_new_best : Bool
  originOwn : Bool

/-- Embedding of the import branch of the event loop of
`run_chain_state_metrics` (chain_state.rs, lines 160-185): a self-authored
imported block is appended to its level's list (inserting a fresh singleton when the
level was absent); a new-best import updates the best-block gauge, runs
reorg detection against the previous best, and becomes the new previous
best. Notifications that are neither new-best nor self-authored are dropped
by the stream filter and leave the state unchanged. -/
def importStep (be : ChainBackend) (s : TrackerState) (blk : ImportNotification) :
    TrackerState :=
  let s1 :=
    if blk.originOwn then
      { s with own_imported_by_level := fun n =>
          if n = blk.header.number then
            some ((s.own_imported_by_level blk.header.number).getD [] ++ [blk.header.hash])
          else s.own_imported_by_level n }
    else s
  if blk.is_new_best then
    let s2 := { s1 with metrics := update_best_block s1.metrics blk.header.number }
    let s3 :=
      match detect_reorgs be s1.previous_best blk.header with
      | some len => { s2 with metrics := report_reorg s2.metrics len }
      | none => s2
    { s3 with previous_best := some blk.header }
  else s1

/-- Embedding of the finality branch of the event loop of
`run_chain_state_metrics` (chain_state.rs, lines 187-208): update the
top-finalized gauge, remove the finalized height's entry from
`own_imported_by_level`, and increment the own-hopeless counter once per
removed hash that differs from the finalized hash. -/
def finalityStep (s : TrackerState) (hdr : Header) : TrackerState :=
  let m1 := update_top_finalized_block s.metrics hdr.number
  match s.own_imported_by_level hdr.number with
  | some hashes =>
    { s with
      metrics := (hashes.filter (fun x => x != hdr.hash)).foldl
        (fun m _ => increment_own_hopeless_blocks m) m1,
      own_imported_by_level := fun n =>
        if n = hdr.number then none else s.own_imported_by_level n }
  | none => { s with metrics := m1 }

/-- Sample tracker state for witnesses: Prometheus metrics at zero, two
self-authored blocks (hashes 11 and 20) pending at height 2. -/
def sampleTracker : TrackerState :=
  { metrics := ChainStateMetrics.Prometheus 0 0 0 0 [],
    own_imported_by_level := fun n => if n = 2 then some [11, 20] else none,
    previous_best := none }

/- Session backup manager (finality-aleph/src/party/member.rs). A session
directory is modelled as its listing: a list of (file name, contents)
pairs, contents being byte lists. -/

/-- Strip a prefix from a character list, mirroring the character-by-character
comparison of a prefix strip; `none` when the prefix does not match. -/
def stripPrefixList : List Char → List Char → Option (List Char)
  | [], rest => some rest
  | _ :: _, [] => none
  | p :: ps, c :: cs => if c = p then stripPrefixList ps cs else none

/-- Embedding of Rust `str::strip_suffix`: remove the suffix when present,
`none` otherwise. -/
def stripSuffix (s sfx : String) : Option String :=
  (stripPrefixList sfx.data.reverse s.data.reverse).map (fun r => String.mk r.reverse)

/-- Whether a character is an ASCII decimal digit. -/
def isAsciiDigit (c : Char) : Bool :=
  48 ≤ c.toNat && c.toNat ≤ 57

/-- Value of a digit string read most-significant first. -/
def digitsToNat (cs : List Char) : Nat :=
  cs.foldl (fun acc c => 10 * acc + (c.toNat - 48)) 0

/-- Strip one optional leading plus sign, as Rust `usize::from_str` does. -/
def stripPlus (cs : List Char) : List Char :=
  match cs with
  | c :: rest => if c = '+' then rest else c :: rest
  | [] => []

/-- Embedding of Rust `usize::from_str`: an optional leading plus sign
followed by at least one decimal digit. Overflow of the machine word is not
modelled; the indices the claims exercise are small. -/
def parseUsize (s : String) : Option Nat :=
  let cs := stripPlus s.data
  if cs ≠ [] ∧ cs.all isAsciiDigit then some (digitsToNat cs) else none

/-- Index parsed from a backup file name, mirroring
`usize::from_str(name.strip_suffix(".abfts")?)` (member.rs, line 128). -/
def parseBackupFileName (s : String) : Option Nat :=
  match stripSuffix s ".abfts" with
  | none => none
  | some stem => parseUsize stem

/-- Decimal digit character for a digit below ten. -/
def digitChar (d : Nat) : Char :=
  match d with
  | 0 => '0'
  | 1 => '1'
  | 2 => '2'
  | 3 => '3'
  | 4 => '4'
  | 5 => '5'
  | 6 => '6'
  | 7 => '7'
  | 8 => '8'
  | _ => '9'

/-- Decimal digits of a number, least significant first, with explicit
fuel so that the definition is structural and evaluates; fuel at least the
number itself always suffices. -/
def natDigitsRev : Nat → Nat → List Char
  | 0, _ => []
  | fuel + 1, n =>
    if n = 0 then [] else digitChar (n % 10) :: natDigitsRev fuel (n / 10)

/-- Decimal representation of a natural number, most significant digit
first: the output of Rust `format!("{}", i)` for an index. -/
def backupStem (i : Nat) : List Char :=
  if i = 0 then ['0'] else (natDigitsRev i i).reverse

/-- File name of the backup shard at a given index, mirroring
`format!("{}{}", index, ".abfts")`. -/
def backupFileName (i : Nat) : String :=
  String.mk (backupStem i ++ ".abfts".data)

/-- Insert into a sorted list, keeping ascending order. -/
def insertSorted (x : Nat) : List Nat → List Nat
  | [] => [x]
  | y :: ys => if x ≤ y then x :: y :: ys else y :: insertSorted x ys

/-- Ascending sort, mirroring `sort_unstable` on a vector of indices. -/
def sortNat (l : List Nat) : List Nat :=
  l.foldr insertSorted []

/-- Sorted list of shard indices parsed from a directory listing, mirroring
member.rs lines 125-130. -/
def sortedIndices (dir : List (String × List Nat)) : List Nat :=
  sortNat ((dir.map Prod.fst).filterMap parseBackupFileName)

/-- Contents of the directory entry with the given name, `none` when no such
file exists (so that opening it fails). -/
def lookupFile (dir : List (String × List Nat)) (name : String) : Option (List Nat) :=
  (dir.find? (fun e => e.1 = name)).map (fun e => e.2)

/-- Filesystem side effects performed by the backup rotation: opening a
shard for reading, and creating the fresh shard. -/
inductive FsEvent where
  | openRead (name : String)
  | create (name : String)
deriving DecidableEq, Repr

/-- Embedding of `BackupLoadError` (member.rs, lines 73-77); the payload of
the IO variant is dropped. -/
inductive BackupLoadError where
  | BackupIncomplete (indices : List Nat)
  | IOError
deriving DecidableEq, Repr

/-- Read loop of member.rs lines 135-139: open each index's file in order
and append its bytes to the buffer, recording each open; a missing file is
an IO error (the open is recorded as attempted). -/
def readShardsAux (dir : List (String × List Nat)) :
    List Nat → List Nat → List FsEvent → Except BackupLoadError (List Nat) × List FsEvent
  | [], buffer, events => (Except.ok buffer, events)
  | i :: rest, buffer, events =>
    match lookupFile dir (backupFileName i) with
    | none =>
      (Except.error BackupLoadError.IOError, events ++ [FsEvent.openRead (backupFileName i)])
    | some bytes =>
      readShardsAux dir rest (buffer ++ bytes) (events ++ [FsEvent.openRead (backupFileName i)])

deriving instance DecidableEq for Except

/-- Result of a successful rotation: the name of the freshly created shard
(the writer) and the concatenated replay buffer (the reader). -/
structure RotateResult where
  saverName : String
  loader : List Nat
deriving DecidableEq, Repr

/-- Embedding of `rotate_saved_backup_files` (member.rs, lines 118-147) on
the session directory listing, together with the trace of filesystem
side effects it performs: parse and sort the shard indices; when they are
not exactly `0..n-1` fail with `BackupIncomplete` before touching any file;
otherwise concatenate the shards in index order and create the next shard. -/
def rotate_saved_backup_files (dir : List (String × List Nat)) :
    Except BackupLoadError RotateResult × List FsEvent :=
  let session_backups := sortedIndices dir
  if session_backups = List.range session_backups.length then
    match readShardsAux dir session_backups [] [] with
    | (Except.error e, events) => (Except.error e, events)
    | (Except.ok buffer, events) =>
      let newName := backupFileName
        (match session_backups.getLast? with
         | some i => i + 1
         | none => 0)
      (Except.ok ⟨newName, buffer⟩, events ++ [FsEvent.create newName])
  else
    (Except.error (BackupLoadError.BackupIncomplete session_backups), [])

/-- Concatenation of the shard contents at the given indices, in order. -/
def shardConcat (dir : List (String × List Nat)) : List Nat → List Nat
  | [] => []
  | i :: rest => (lookupFile dir (backupFileName i)).getD [] ++ shardConcat dir rest

/-- Whether a file name is canonical: if it parses as a shard name, it is
exactly the decimal name of its index (no leading zeros, no sign). -/
def canonicalName (s : String) : Bool :=
  match parseBackupFileName s with
  | some i => decide (s = backupFileName i)
  | none => true

/-- Byte sink handed to the session runner, mirroring the
`Box<dyn Write + Send>` of member.rs lines 44-60: either `io::sink()` or
the freshly created shard file. -/
inductive BackupSaver where
  | sink
  | file (name : String)
deriving DecidableEq, Repr

/-- Byte source handed to the session runner: either `io::empty()` or the
cursor over the replay buffer. -/
inductive BackupLoader where
  | empty
  | cursor (buffer : List Nat)
deriving DecidableEq, Repr

/-- Bytes that an attempted write actually persists: `io::sink()` discards
everything, a file write persists the bytes. -/
def writtenBytes : BackupSaver → List Nat → List Nat
  | BackupSaver.sink, _ => []
  | BackupSaver.file _, bs => bs

/-- Bytes yielded by reading a loader to the end: `io::empty()` yields
nothing, a cursor yields its buffer. -/
def readBytes : BackupLoader → List Nat
  | BackupLoader.empty => []
  | BackupLoader.cursor buffer => buffer

/-- Embedding of the backup setup slice of `task` (member.rs, lines 44-60):
with no configured backup path the session gets `io::sink()` and
`io::empty()`; with a path, a rotation error aborts the session setup
(`none`), otherwise the fresh shard and the replay cursor are handed
over. The session directory listing stands for the configured path. -/
def taskBackupSetup (sessionDir : Option (List (String × List Nat))) (_session_id : Nat) :
    Option (BackupSaver × BackupLoader) :=
  match sessionDir with
  | none => some (BackupSaver.sink, BackupLoader.empty)
  | some dir =>
    match (rotate_saved_backup_files dir).1 with
    | Except.error _ => none
    | Except.ok r => some (BackupSaver.file r.saverName, BackupLoader.cursor r.loader)

/-- Directory with a gap: shards 0 and 2 exist, shard 1 is missing. -/
def gapDir : List (String × List Nat) := [("0.abfts", [1]), ("2.abfts", [2])]

/-- Directory whose single file carries a leading zero in its name. -/
def zeroZeroDir : List (String × List Nat) := [("00.abfts", [1])]

/-- Complete two-shard directory, listed out of index order. -/
def fullDir : List (String × List Nat) := [("1.abfts", [3]), ("0.abfts", [1, 2])]

/-- Second status backend, extensionally equal to `wBE` field by field. -/
def wBE2 : StatusBackend :=
  { header := fun x => wBE.header x,
    justifications := fun x => wBE.justifications x,
    decode := fun r => wBE.decode r }

/- Sanity checks reproducing the expectation table of `test_reorg_detection`. -/
example : detect_reorgs fixtureBackend (some fixA1) fixA2 = none := by decide
example : detect_reorgs fixtureBackend (some fixA1) fixA4 = none := by decide
example : detect_reorgs fixtureBackend (some fixA1) fixA1 = none := by decide
example : detect_reorgs fixtureBackend (some fixA2) fixB0 = some 2 := by decide
example : detect_reorgs fixtureBackend (some fixB0) fixA2 = some 1 := by decide
example : detect_reorgs fixtureBackend (some fixC1) fixB2 = some 4 := by decide

/-- C1 counterexample: on the fixture chain, with previous best A1 and new
best A4 (a strict descendant that is not a direct child), `detect_reorgs`
returns `None` even though the new best differs from the previous best and
its parent hash differs from the previous best's hash, contradicting the
claimed "None if and only if new equals prev or new's parent is prev". -/
theorem c1_reorg_none_counterexample :
    detect_reorgs fixtureBackend (some fixA1) fixA4 = none ∧
    fixA4 ≠ fixA1 ∧ fixA4.hash ≠ fixA1.hash ∧ fixA4.parent_hash ≠ fixA1.hash := by
  decide

/-- C1 (amended): `detect_reorgs(backend, Some(prev), new)` returns `None`
exactly when the new best equals the previous best, or its parent hash is the
previous best's hash, or the lowest-common-ancestor computation fails or
yields depth `prev.number - lca.number = 0` (in particular whenever `prev`
is an ancestor of `new`); in every other case it returns
`Some(prev.number - lca.number)`, and the returned depth is never zero. -/
theorem c1_detect_reorgs_characterization (be : ChainBackend) (prev best : Header) :
    (detect_reorgs be (some prev) best = none ↔
      best.hash = prev.hash ∨ best.parent_hash = prev.hash ∨
      ∀ l, lowest_common_ancestor be best.hash prev.hash = some l →
        prev.number - l.number = 0)
    ∧ ∀ d, detect_reorgs be (some prev) best = some d →
        d ≠ 0 ∧ ∃ l, lowest_common_ancestor be best.hash prev.hash = some l ∧
          d = prev.number - l.number := by
  unfold detect_reorgs
  dsimp only
  by_cases hc : best.hash = prev.hash ∨ best.parent_hash = prev.hash
  · rw [if_pos hc]
    constructor
    · constructor
      · intro _
        tauto
      · intro _
        rfl
    · intro d hd
      cases hd
  · rw [if_neg hc]
    cases hl : lowest_common_ancestor be best.hash prev.hash with
    | none => simp [hl, hc]
    | some l =>
      by_cases hz : prev.number - l.number = 0
      · simp only [hl, hz, if_pos, ite_true]
        constructor
        · constructor
          · intro _
            right; right
            intro l2 h2
            cases h2
            exact hz
          · intro _
            trivial
        · intro d hd
          cases hd
      · simp only [hl, if_neg hz]
        constructor
        · constructor
          · intro h
            cases h
          · intro h
            rcases h with h | h | h
            · exact absurd (Or.inl h) hc
            · exact absurd (Or.inr h) hc
            · exact absurd (h l rfl) hz
        · intro d hd
          cases hd
          exact ⟨hz, l, rfl, rfl⟩

/-- C1 witness: the amended characterization applied to the fixture inputs
previous best A2 and new best B0, a genuine reorg of depth two. -/
theorem c1_detect_reorgs_characterization_witness :
    2 ≠ 0 ∧ ∃ l, lowest_common_ancestor fixtureBackend fixB0.hash fixA2.hash = some l ∧
      2 = fixA2.number - l.number :=
  (c1_detect_reorgs_characterization fixtureBackend fixA2 fixB0).2 2 (by decide)

/- Helper lemmas about decimal printing and parsing of shard file names. -/

theorem digitChar_toNat (d : Nat) (hd : d < 10) : (digitChar d).toNat = 48 + d := by
  interval_cases d <;> rfl

theorem isAsciiDigit_digitChar (d : Nat) (hd : d < 10) :
    isAsciiDigit (digitChar d) = true := by
  interval_cases d <;> decide

theorem natDigitsRev_all_digits (fuel : Nat) :
    ∀ n, (natDigitsRev fuel n).all isAsciiDigit = true := by
  induction fuel with
  | zero => intro n; rfl
  | succ f ih =>
    intro n
    unfold natDigitsRev
    by_cases h : n = 0
    · simp [h]
    · rw [if_neg h]
      rw [List.all_cons]
      rw [isAsciiDigit_digitChar (n % 10) (Nat.mod_lt _ (by norm_num))]
      rw [ih (n / 10)]
      rfl

theorem natDigitsRev_ne_nil (f n : Nat) (h0 : n ≠ 0) (hf : f ≠ 0) :
    natDigitsRev f n ≠ [] := by
  obtain ⟨g, rfl⟩ : ∃ g, f = g + 1 := ⟨f - 1, by omega⟩
  unfold natDigitsRev
  rw [if_neg h0]
  simp

theorem digitsToNat_append (xs : List Char) (c : Char) :
    digitsToNat (xs ++ [c]) = 10 * digitsToNat xs + (c.toNat - 48) := by
  unfold digitsToNat
  rw [List.foldl_append]
  rfl

theorem digitsToNat_natDigitsRev (fuel : Nat) :
    ∀ n, n ≤ fuel → digitsToNat (natDigitsRev fuel n).reverse = n := by
  induction fuel with
  | zero =>
    intro n hn
    have : n = 0 := by omega
    subst this
    rfl
  | succ f ih =>
    intro n hn
    by_cases h0 : n = 0
    · subst h0
      rfl
    · unfold natDigitsRev
      rw [if_neg h0, List.reverse_cons, digitsToNat_append]
      have hdiv : n / 10 < n := Nat.div_lt_self (Nat.pos_of_ne_zero h0) (by norm_num)
      rw [ih (n / 10) (by omega)]
      rw [digitChar_toNat (n % 10) (Nat.mod_lt _ (by norm_num))]
      omega

theorem backupStem_all (i : Nat) : (backupStem i).all isAsciiDigit = true := by
  unfold backupStem
  by_cases h : i = 0
  · subst h
    decide
  · rw [if_neg h]
    rw [List.all_reverse]
    exact natDigitsRev_all_digits i i

theorem backupStem_ne_nil (i : Nat) : backupStem i ≠ [] := by
  unfold backupStem
  by_cases h : i = 0
  · simp [h]
  · rw [if_neg h]
    simp only [ne_eq, List.reverse_eq_nil_iff]
    exact natDigitsRev_ne_nil i i h h

theorem digitsToNat_backupStem (i : Nat) : digitsToNat (backupStem i) = i := by
  unfold backupStem
  by_cases h : i = 0
  · simp [h]
    rfl
  · rw [if_neg h]
    exact digitsToNat_natDigitsRev i i le_rfl

theorem stripPlus_of_digits (cs : List Char) (h : cs.all isAsciiDigit = true) :
    stripPlus cs = cs := by
  cases cs with
  | nil => rfl
  | cons c rest =>
    unfold stripPlus
    rw [List.all_cons] at h
    show (if c = '+' then rest else c :: rest) = c :: rest
    rw [if_neg]
    intro hc
    rw [hc] at h
    exact absurd (Bool.and_elim_left h) (by decide)

theorem stripPrefixList_append (p : List Char) :
    ∀ r, stripPrefixList p (p ++ r) = some r := by
  induction p with
  | nil => intro r; rfl
  | cons c cs ih =>
    intro r
    show (if c = c then stripPrefixList cs (cs ++ r) else none) = some r
    rw [if_pos rfl]
    exact ih r

theorem stripSuffix_mk_append (stem : List Char) (sfx : String) :
    stripSuffix (String.mk (stem ++ sfx.data)) sfx = some (String.mk stem) := by
  unfold stripSuffix
  rw [show (String.mk (stem ++ sfx.data)).data = stem ++ sfx.data from rfl]
  rw [List.reverse_append]
  rw [stripPrefixList_append]
  show some (String.mk stem.reverse.reverse) = some (String.mk stem)
  rw [List.reverse_reverse]

theorem parse_backupFileName (i : Nat) :
    parseBackupFileName (backupFileName i) = some i := by
  unfold parseBackupFileName backupFileName
  rw [stripSuffix_mk_append]
  unfold parseUsize
  dsimp only
  rw [stripPlus_of_digits _ (backupStem_all i)]
  rw [if_pos ⟨backupStem_ne_nil i, backupStem_all i⟩]
  rw [digitsToNat_backupStem]

theorem mem_insertSorted (a x : Nat) (l : List Nat) :
    a ∈ insertSorted x l ↔ a = x ∨ a ∈ l := by
  induction l with
  | nil => simp [insertSorted]
  | cons y ys ih =>
    unfold insertSorted
    by_cases h : x ≤ y
    · rw [if_pos h]
      simp
    · rw [if_neg h]
      simp only [List.mem_cons, ih]
      tauto

theorem mem_sortNat (a : Nat) (l : List Nat) : a ∈ sortNat l ↔ a ∈ l := by
  unfold sortNat
  induction l with
  | nil => simp
  | cons x xs ih =>
    rw [List.foldr_cons, mem_insertSorted, ih]
    simp

theorem lookupFile_isSome (dir : List (String × List Nat)) (name : String)
    (h : name ∈ dir.map Prod.fst) : (lookupFile dir name).isSome = true := by
  unfold lookupFile
  obtain ⟨e, he, rfl⟩ := List.mem_map.mp h
  have hs : (List.find? (fun x => x.1 = e.1) dir).isSome = true :=
    List.find?_isSome.mpr ⟨e, he, by simp⟩
  obtain ⟨v, hv⟩ := Option.isSome_iff_exists.mp hs
  rw [hv]
  rfl

theorem readShardsAux_complete (dir : List (String × List Nat)) :
    ∀ l : List Nat, (∀ i ∈ l, (lookupFile dir (backupFileName i)).isSome = true) →
    ∀ (buffer : List Nat) (events : List FsEvent),
    readShardsAux dir l buffer events =
      (Except.ok (buffer ++ shardConcat dir l),
       events ++ l.map (fun i => FsEvent.openRead (backupFileName i))) := by
  intro l
  induction l with
  | nil =>
    intro _ buffer events
    simp [readShardsAux, shardConcat]
  | cons i rest ih =>
    intro h buffer events
    unfold readShardsAux
    cases hl : lookupFile dir (backupFileName i) with
    | none =>
      have := h i (by simp)
      rw [hl] at this
      exact absurd this (by decide)
    | some bytes =>
      show readShardsAux dir rest (buffer ++ bytes)
          (events ++ [FsEvent.openRead (backupFileName i)]) =
        (Except.ok (buffer ++ shardConcat dir (i :: rest)),
         events ++ List.map (fun i => FsEvent.openRead (backupFileName i)) (i :: rest))
      rw [ih (fun j hj => h j (by simp [hj])) (buffer ++ bytes)
        (events ++ [FsEvent.openRead (backupFileName i)])]
      have hsc : shardConcat dir (i :: rest) =
          (lookupFile dir (backupFileName i)).getD [] ++ shardConcat dir rest := rfl
      rw [hsc, hl]
      simp [List.append_assoc]

theorem range_getLast_succ (n : Nat) :
    (match (List.range n).getLast? with
     | some i => i + 1
     | none => 0) = n := by
  cases n with
  | zero => rfl
  | succ m =>
    rw [List.range_succ, List.getLast?_concat]

/-- C2: when the sorted shard indices of the session directory are not
exactly `0, 1, ..., n-1`, `rotate_saved_backup_files` fails with
`BackupIncomplete` carrying the sorted index list, having read no shard
contents and created no file (the side-effect trace is empty). -/
theorem c2_backup_incomplete (dir : List (String × List Nat))
    (h : sortedIndices dir ≠ List.range (sortedIndices dir).length) :
    rotate_saved_backup_files dir =
      (Except.error (BackupLoadError.BackupIncomplete (sortedIndices dir)), []) := by
  unfold rotate_saved_backup_files
  rw [if_neg h]

/-- C2 witness: the gapped directory with shards 0 and 2 fails with
`BackupIncomplete [0, 2]` and performs no filesystem side effect. -/
theorem c2_backup_incomplete_witness :
    rotate_saved_backup_files gapDir =
      (Except.error (BackupLoadError.BackupIncomplete (sortedIndices gapDir)), []) ∧
    sortedIndices gapDir = [0, 2] :=
  ⟨c2_backup_incomplete gapDir (by decide), by decide⟩

/-- C6 counterexample: in a directory whose single file is named
`00.abfts`, the parsed shard indices are exactly `{0}`, yet rotation fails
with an IO error (the read-back opens `0.abfts`, which does not exist)
instead of returning a reader and a writer. -/
theorem c6_complete_claim_counterexample :
    sortedIndices zeroZeroDir = List.range 1 ∧
    rotate_saved_backup_files zeroZeroDir =
      (Except.error BackupLoadError.IOError, [FsEvent.openRead "0.abfts"]) := by
  decide

/-- C6 (amended): when every shard file is named canonically (its name is
the plain decimal of its index followed by `.abfts`) and the indices found
are exactly `0, 1, ..., n-1`, rotation returns the concatenation of the `n`
shards' bytes in ascending index order as the reader, creates the writer as
a new file at index `n` (index 0 when no shards existed), and the created
file name does not belong to the existing listing; the side effects are
exactly the `n` reads in index order followed by that single creation. -/
theorem c6_rotate_complete (dir : List (String × List Nat)) (n : Nat)
    (hcanon : dir.all (fun e => canonicalName e.1) = true)
    (hcomplete : sortedIndices dir = List.range n) :
    rotate_saved_backup_files dir =
      (Except.ok ⟨backupFileName n, shardConcat dir (List.range n)⟩,
       (List.range n).map (fun i => FsEvent.openRead (backupFileName i)) ++
         [FsEvent.create (backupFileName n)]) ∧
    backupFileName n ∉ dir.map Prod.fst := by
  have hname : ∀ i ∈ List.range n, backupFileName i ∈ dir.map Prod.fst := by
    intro i hi
    rw [← hcomplete] at hi
    unfold sortedIndices at hi
    rw [mem_sortNat] at hi
    obtain ⟨name, hmem, hparse⟩ := List.mem_filterMap.mp hi
    obtain ⟨e, he, rfl⟩ := List.mem_map.mp hmem
    have hc := List.all_eq_true.mp hcanon e he
    unfold canonicalName at hc
    rw [hparse] at hc
    have : e.1 = backupFileName i := of_decide_eq_true hc
    rw [← this]
    exact List.mem_map.mpr ⟨e, he, rfl⟩
  constructor
  · unfold rotate_saved_backup_files
    rw [hcomplete]
    rw [if_pos (by rw [List.length_range])]
    rw [readShardsAux_complete dir (List.range n)
      (fun i hi => lookupFile_isSome dir (backupFileName i) (hname i hi)) [] []]
    rw [range_getLast_succ]
    simp
  · intro habs
    have : n ∈ (dir.map Prod.fst).filterMap parseBackupFileName := by
      obtain ⟨e, he, heq⟩ := List.mem_map.mp habs
      exact List.mem_filterMap.mpr ⟨e.1, List.mem_map.mpr ⟨e, he, rfl⟩,
        by rw [heq, parse_backupFileName]⟩
    have : n ∈ sortedIndices dir := by
      unfold sortedIndices
      rw [mem_sortNat]
      exact this
    rw [hcomplete, List.mem_range] at this
    omega

/-- C6 witness: the complete two-shard directory (listed out of order)
rotates to the reader `[1, 2, 3]` and the fresh writer `2.abfts`, reading
shards 0 and 1 in order. -/
theorem c6_rotate_complete_witness :
    (rotate_saved_backup_files fullDir =
      (Except.ok ⟨backupFileName 2, shardConcat fullDir (List.range 2)⟩,
       (List.range 2).map (fun i => FsEvent.openRead (backupFileName i)) ++
         [FsEvent.create (backupFileName 2)]) ∧
    backupFileName 2 ∉ fullDir.map Prod.fst) ∧
    shardConcat fullDir (List.range 2) = [1, 2, 3] :=
  ⟨c6_rotate_complete fullDir 2 (by decide) (by decide), by decide⟩

/-- C7: with no backup path configured, session setup hands the runner the
discarding sink writer and the empty reader, and cannot fail; the sink
persists no byte of any write and the empty reader yields no bytes. -/
theorem c7_no_backup_path (sid : Nat) (bs : List Nat) :
    taskBackupSetup none sid = some (BackupSaver.sink, BackupLoader.empty) ∧
    writtenBytes BackupSaver.sink bs = [] ∧
    readBytes BackupLoader.empty = [] :=
  ⟨rfl, rfl, rfl⟩

/- Helper lemmas about the metrics operations. -/

theorem ownHopeless_update_top (m : ChainStateMetrics) (n : Nat) :
    ownHopelessCount (update_top_finalized_block m n) = ownHopelessCount m := by
  cases m <;> rfl

theorem isPrometheus_update_top (m : ChainStateMetrics) (n : Nat) :
    isPrometheus (update_top_finalized_block m n) = isPrometheus m := by
  cases m <;> rfl

theorem isPrometheus_inc (m : ChainStateMetrics) :
    isPrometheus (increment_own_hopeless_blocks m) = isPrometheus m := by
  cases m <;> rfl

theorem ownHopeless_inc (m : ChainStateMetrics) (hm : isPrometheus m = true) :
    ownHopelessCount (increment_own_hopeless_blocks m) = ownHopelessCount m + 1 := by
  cases m with
  | Prometheus a b c d e => rfl
  | Noop => exact absurd hm (by decide)

theorem ownFinalized_inc (m : ChainStateMetrics) :
    ownFinalizedCount (increment_own_hopeless_blocks m) = ownFinalizedCount m := by
  cases m <;> rfl

theorem topFinalized_inc (m : ChainStateMetrics) :
    topFinalizedGauge (increment_own_hopeless_blocks m) = topFinalizedGauge m := by
  cases m <;> rfl

theorem ownHopeless_foldl_inc {α : Type} (l : List α) :
    ∀ m : ChainStateMetrics, isPrometheus m = true →
    ownHopelessCount (l.foldl (fun m _ => increment_own_hopeless_blocks m) m)
      = ownHopelessCount m + l.length := by
  induction l with
  | nil => intro m _; simp
  | cons a t ih =>
    intro m hm
    rw [List.foldl_cons]
    rw [ih _ (by rw [isPrometheus_inc]; exact hm)]
    rw [ownHopeless_inc m hm]
    simp only [List.length_cons]
    omega

theorem ownFinalized_foldl_inc {α : Type} (l : List α) :
    ∀ m : ChainStateMetrics,
    ownFinalizedCount (l.foldl (fun m _ => increment_own_hopeless_blocks m) m)
      = ownFinalizedCount m := by
  induction l with
  | nil => intro m; rfl
  | cons a t ih =>
    intro m
    rw [List.foldl_cons, ih, ownFinalized_inc]

theorem topFinalized_foldl_inc {α : Type} (l : List α) :
    ∀ m : ChainStateMetrics,
    topFinalizedGauge (l.foldl (fun m _ => increment_own_hopeless_blocks m) m)
      = topFinalizedGauge m := by
  induction l with
  | nil => intro m; rfl
  | cons a t ih =>
    intro m
    rw [List.foldl_cons, ih, topFinalized_inc]

/-- C3: processing a finality event for header `hdr` in Prometheus mode
removes exactly the `own_imported_by_level` entry at the finalized height
(every other height is untouched) and increments the own-hopeless counter
by exactly the number of removed hashes that differ from the finalized
hash, and by nothing else. -/
theorem c3_finality_hopeless_accounting (s : TrackerState) (hdr : Header)
    (hm : isPrometheus s.metrics = true) :
    (finalityStep s hdr).own_imported_by_level hdr.number = none
    ∧ (∀ n, n ≠ hdr.number →
        (finalityStep s hdr).own_imported_by_level n = s.own_imported_by_level n)
    ∧ ownHopelessCount (finalityStep s hdr).metrics
        = ownHopelessCount s.metrics
          + (match s.own_imported_by_level hdr.number with
             | some hs => (hs.filter (fun x => x != hdr.hash)).length
             | none => 0) := by
  unfold finalityStep
  cases hp : s.own_imported_by_level hdr.number with
  | none =>
    dsimp only
    exact ⟨hp, fun n _ => rfl, by rw [ownHopeless_update_top]; omega⟩
  | some hs =>
    dsimp only
    refine ⟨by simp, fun n hn => by simp [hn], ?_⟩
    rw [ownHopeless_foldl_inc _ _ (by rw [isPrometheus_update_top]; exact hm)]
    rw [ownHopeless_update_top]

/-- C3 witness: with hashes 11 and 20 pending at height 2, finalizing the
fixture header A1 (hash 11, height 2) clears the entry and produces exactly
one own-hopeless increment, for the losing hash 20. -/
theorem c3_finality_hopeless_accounting_witness :
    (finalityStep sampleTracker fixA1).own_imported_by_level 2 = none
    ∧ ownHopelessCount (finalityStep sampleTracker fixA1).metrics
        = ownHopelessCount sampleTracker.metrics + 1 :=
  ⟨(c3_finality_hopeless_accounting sampleTracker fixA1 rfl).1, by
    have h := (c3_finality_hopeless_accounting sampleTracker fixA1 rfl).2.2
    simpa [sampleTracker] using h⟩

/-- C9: in Prometheus mode, `update_top_finalized_block` both sets the
top-finalized gauge and increments the `own_finalized_blocks` counter; the
finality branch of the event loop calls it on every finality notification,
so each processed finality event raises the counter by one and sets the
gauge to the finalized height, whether or not the block was
self-authored. -/
theorem c9_update_top_finalized_counts (fin hope top best : Nat) (rr : List Nat)
    (n : Nat) (s : TrackerState) (hdr : Header) :
    update_top_finalized_block (ChainStateMetrics.Prometheus fin hope top best rr) n
      = ChainStateMetrics.Prometheus (fin + 1) hope n best rr
    ∧ (s.metrics = ChainStateMetrics.Prometheus fin hope top best rr →
        ownFinalizedCount (finalityStep s hdr).metrics = fin + 1
        ∧ topFinalizedGauge (finalityStep s hdr).metrics = hdr.number) := by
  constructor
  · rfl
  · intro hs
    unfold finalityStep
    cases hp : s.own_imported_by_level hdr.number with
    | none =>
      dsimp only
      rw [hs]
      exact ⟨rfl, rfl⟩
    | some pend =>
      dsimp only
      constructor
      · rw [ownFinalized_foldl_inc, hs]
        rfl
      · rw [topFinalized_foldl_inc, hs]
        rfl

/-- C9 witness: finalizing the fixture header A0 from the sample tracker
state raises the own-finalized counter from zero to one and sets the gauge
to A0's height. -/
theorem c9_update_top_finalized_counts_witness :
    ownFinalizedCount (finalityStep sampleTracker fixA0).metrics = 0 + 1
    ∧ topFinalizedGauge (finalityStep sampleTracker fixA0).metrics = fixA0.number :=
  (c9_update_top_finalized_counts 0 0 0 0 [] 0 sampleTracker fixA0).2 rfl

/-- C4: `status_of` returns `Ok(Unknown)` when no header exists for the
hash, `Err(MismatchedId)` when the header's number differs from the
identifier's, `Ok(Justified)` when the header matches and the stored
justification bytes decode, and `Ok(Present)` otherwise. -/
theorem c4_status_of_cases (be : StatusBackend) (id : BlockId) :
    (be.header id.hash = none → status_of be id = Except.ok BlockStatus.Unknown)
    ∧ (∀ h, be.header id.hash = some h → h.number ≠ id.number →
        status_of be id = Except.error StatusError.MismatchedId)
    ∧ (∀ h raw j, be.header id.hash = some h → h.number = id.number →
        be.justifications id.hash = some raw → be.decode raw = some j →
        status_of be id = Except.ok (BlockStatus.Justified ⟨h, j⟩))
    ∧ (∀ h, be.header id.hash = some h → h.number = id.number →
        justification_of be id.hash = Except.ok none →
        status_of be id = Except.ok (BlockStatus.Present h)) := by
  refine ⟨?_, ?_, ?_, ?_⟩
  · intro hh
    simp [status_of, header_of, hh]
  · intro h hh hn
    simp [status_of, header_of, hh, hn]
  · intro h raw j hh hn hraw hdec
    simp [status_of, header_of, justification_of, hh, hn, hraw, hdec]
  · intro h hh hn hj
    simp [status_of, header_of, hh, hn, hj]

/-- C4 witness: on the sample backend, an unknown hash is `Unknown`, a
wrong number is `MismatchedId`, a decodable justification is `Justified`,
and a block without justification bytes is `Present`. -/
theorem c4_status_of_cases_witness :
    status_of wBE ⟨77, 0⟩ = Except.ok BlockStatus.Unknown
    ∧ status_of wBE ⟨5, 99⟩ = Except.error StatusError.MismatchedId
    ∧ status_of wBE ⟨5, 10⟩ = Except.ok (BlockStatus.Justified ⟨wH5, 7⟩)
    ∧ status_of wBE ⟨6, 11⟩ = Except.ok (BlockStatus.Present wH6) :=
  ⟨(c4_status_of_cases wBE ⟨77, 0⟩).1 rfl,
   (c4_status_of_cases wBE ⟨5, 99⟩).2.1 wH5 rfl (by decide),
   (c4_status_of_cases wBE ⟨5, 10⟩).2.2.1 wH5 [1, 2] 7 rfl rfl rfl rfl,
   (c4_status_of_cases wBE ⟨6, 11⟩).2.2.2 wH6 rfl rfl (by decide)⟩

/-- C5: when the stored justification bytes for a hash fail to decode, the
justification lookup returns `Ok(None)` rather than an error, and
`status_of` reports the block as `Present`; the decode failure is never
surfaced to the caller. -/
theorem c5_decode_failure_present (be : StatusBackend) (id : BlockId) (h : Header)
    (raw : List Nat) (hh : be.header id.hash = some h) (hn : h.number = id.number)
    (hraw : be.justifications id.hash = some raw) (hdec : be.decode raw = none) :
    justification_of be id.hash = Except.ok none
    ∧ status_of be id = Except.ok (BlockStatus.Present h) := by
  have hj : justification_of be id.hash = Except.ok none := by
    simp [justification_of, hraw, hdec]
  exact ⟨hj, by simp [status_of, header_of, hh, hn, hj]⟩

/-- C5 witness: block 8 of the sample backend stores bytes `[9]` that fail
to decode, and is reported `Present`, not an error and not `Justified`. -/
theorem c5_decode_failure_present_witness :
    justification_of wBE 8 = Except.ok none
    ∧ status_of wBE ⟨8, 12⟩ = Except.ok (BlockStatus.Present wH8) :=
  c5_decode_failure_present wBE ⟨8, 12⟩ wH8 [9] rfl rfl rfl (by decide)

/-- C8: `status_of` depends only on the backend's stored headers,
justification bytes and decode outcomes; two queries for the same
identifier against backends whose stores agree pointwise (in particular,
two queries with no intervening mutation) return equal results. -/
theorem c8_status_of_idempotent (be1 be2 : StatusBackend) (id : BlockId)
    (hh : ∀ x, be1.header x = be2.header x)
    (hj : ∀ x, be1.justifications x = be2.justifications x)
    (hd : ∀ r, be1.decode r = be2.decode r) :
    status_of be1 id = status_of be2 id := by
  simp only [status_of, header_of, justification_of, hh, hj, hd]

/-- C8 witness: the sample backend and its pointwise-equal copy agree on
the status of block 5. -/
theorem c8_status_of_idempotent_witness :
    status_of wBE ⟨5, 10⟩ = status_of wBE2 ⟨5, 10⟩ :=
  c8_status_of_idempotent wBE wBE2 ⟨5, 10⟩ (fun _ => rfl) (fun _ => rfl) (fun _ => rfl)

/-- C10: an absent hash yields `Ok(Unknown)` for every claimed number, and
`MismatchedId` can only arise from a header that exists and disagrees with
the claimed number, never from an absent block. -/
theorem c10_absent_hash_unknown (be : StatusBackend) (id : BlockId) :
    (be.header id.hash = none → status_of be id = Except.ok BlockStatus.Unknown)
    ∧ (status_of be id = Except.error StatusError.MismatchedId →
        ∃ h, be.header id.hash = some h ∧ h.number ≠ id.number) := by
  constructor
  · intro hh
    simp [status_of, header_of, hh]
  · intro herr
    cases hh : be.header id.hash with
    | none =>
      rw [show status_of be id = Except.ok BlockStatus.Unknown from by
        simp [status_of, header_of, hh]] at herr
      cases herr
    | some h =>
      by_cases hn : h.number = id.number
      · have hjo : ∃ o, justification_of be id.hash = Except.ok o := by
          unfold justification_of
          cases be.justifications id.hash with
          | none => exact ⟨none, rfl⟩
          | some raw =>
            dsimp only
            cases be.decode raw with
            | none => exact ⟨none, rfl⟩
            | some j => exact ⟨some j, rfl⟩
        obtain ⟨o, ho⟩ := hjo
        cases o with
        | none =>
          rw [show status_of be id = Except.ok (BlockStatus.Present h) from by
            simp [status_of, header_of, hh, hn, ho]] at herr
          cases herr
        | some j =>
          rw [show status_of be id = Except.ok (BlockStatus.Justified ⟨h, j⟩) from by
            simp [status_of, header_of, hh, hn, ho]] at herr
          cases herr
      · exact ⟨h, rfl, hn⟩

/-- C10 witness: hash 77 is absent and `Unknown` even with an arbitrary
claimed number, while the `MismatchedId` for identifier (5, 99) comes from
the existing header of block 5 whose number is 10. -/
theorem c10_absent_hash_unknown_witness :
    status_of wBE ⟨77, 123⟩ = Except.ok BlockStatus.Unknown
    ∧ ∃ h, wBE.header 5 = some h ∧ h.number ≠ 99 :=
  ⟨(c10_absent_hash_unknown wBE ⟨77, 123⟩).1 rfl,
   (c10_absent_hash_unknown wBE ⟨5, 99⟩).2 (by decide)⟩

end ValidatorAzero
